import Mathlib

/-!
# i2.js: shallow embedding of the playlist manager and the device command wrappers

The development follows `src/modules/playlistManager.js`, `exec.js`, `data.js`,
`sys.js` and `bundle.js`.

Modelling conventions.

* A JavaScript time value is an `Int` number of milliseconds since the epoch; a
  `Date` object is `Option Int`, `none` being an invalid date (time value NaN).
  The calendar functions are those of ECMA-262 (section "Time Values and Time
  Range"), and the local time zone is a fixed offset `tz` (no daylight-saving
  transition during a call).
* The arguments have their documented types: `flavor` and `id` are strings,
  `duration` is a number, `delay` is a number or `null`, `tag` is any of `null`,
  `undefined`, a number or a string.  Numbers are integers, and the arithmetic of
  `duration / 30` is exact (type `Frac`), where JavaScript rounds to a double.
* The external process is an oracle `Dispatcher`: for the instant of a dispatch and
  the command line it says whether the process errors, what it writes to stdout
  and stderr, and how many milliseconds it runs.
* Synchronous code takes no time; a timer fires exactly when it is due (Node.js
  waits 1 ms for a delay outside 1 .. 2^31 - 1), and timers due at the same instant
  fire in the order they were set.
-/

namespace I2

/-! ## ECMA-262 time values -/

def msPerDay : Int := 86400000

def Day (t : Int) : Int := t / msPerDay

def TimeWithinDay (t : Int) : Int := t % msPerDay

def DaysInYear (y : Int) : Int :=
  if y % 4 ≠ 0 then 365
  else if y % 100 ≠ 0 then 366
  else if y % 400 ≠ 0 then 365
  else 366

def DayFromYear (y : Int) : Int :=
  365 * (y - 1970) + (y - 1969) / 4 - (y - 1901) / 100 + (y - 1601) / 400

/-- The year of a day number: the largest `y` with `DayFromYear y ≤ d`, computed
through the 400-, 100-, 4- and 1-year cycles counted from 1 January 1601. -/
def yearOfDay (d : Int) : Int :=
  let n := d + 134774
  let q400 := n / 146097
  let r400 := n % 146097
  let q100 := min (r400 / 36524) 3
  let r100 := r400 - q100 * 36524
  let q4 := r100 / 1461
  let r4 := r100 % 1461
  let q1 := min (r4 / 365) 3
  1601 + 400 * q400 + 100 * q100 + 4 * q4 + q1

def YearFromTime (t : Int) : Int := yearOfDay (Day t)

def InLeapYear (t : Int) : Int :=
  if DaysInYear (YearFromTime t) = 366 then 1 else 0

def DayWithinYear (t : Int) : Int := Day t - DayFromYear (YearFromTime t)

/-- The month (0 to 11) of day `d` of a year, `l` being 1 in a leap year. -/
def monthOfDay (d l : Int) : Int :=
  if d < 31 then 0
  else if d < 59 + l then 1
  else if d < 90 + l then 2
  else if d < 120 + l then 3
  else if d < 151 + l then 4
  else if d < 181 + l then 5
  else if d < 212 + l then 6
  else if d < 243 + l then 7
  else if d < 273 + l then 8
  else if d < 304 + l then 9
  else if d < 334 + l then 10
  else 11

/-- The day of the month of day `d` of a year, given its month `m`. -/
def dateOfDay (m d l : Int) : Int :=
  if m = 0 then d + 1
  else if m = 1 then d - 30
  else if m = 2 then d - 58 - l
  else if m = 3 then d - 89 - l
  else if m = 4 then d - 119 - l
  else if m = 5 then d - 150 - l
  else if m = 6 then d - 180 - l
  else if m = 7 then d - 211 - l
  else if m = 8 then d - 242 - l
  else if m = 9 then d - 272 - l
  else if m = 10 then d - 303 - l
  else d - 333 - l

def MonthFromTime (t : Int) : Int := monthOfDay (DayWithinYear t) (InLeapYear t)

def DateFromTime (t : Int) : Int :=
  dateOfDay (MonthFromTime t) (DayWithinYear t) (InLeapYear t)

def HourFromTime (t : Int) : Int := (t / 3600000) % 24

def MinFromTime (t : Int) : Int := (t / 60000) % 60

def SecFromTime (t : Int) : Int := (t / 1000) % 60

def msFromTime (t : Int) : Int := t % 1000

def MakeTime (hour min sec ms : Int) : Int :=
  hour * 3600000 + min * 60000 + sec * 1000 + ms

def MakeDate (day time : Int) : Int := day * msPerDay + time

/-- TimeClip: a time value further than 8.64e15 ms from the epoch is NaN. -/
def TimeClip (t : Int) : Option Int :=
  if -8640000000000000 ≤ t ∧ t ≤ 8640000000000000 then some t else none

/-! ## Date objects and strings -/

/-- A `Date` object: its time value, `none` when invalid. -/
abbrev JsDate := Option Int

def getUTCMonth (d : JsDate) : Option Int := d.map MonthFromTime
def getUTCDate (d : JsDate) : Option Int := d.map DateFromTime
def getUTCFullYear (d : JsDate) : Option Int := d.map YearFromTime
def getUTCHours (d : JsDate) : Option Int := d.map HourFromTime
def getUTCMinutes (d : JsDate) : Option Int := d.map MinFromTime
def getUTCSeconds (d : JsDate) : Option Int := d.map SecFromTime

/-- Number.prototype.toString on an integer or NaN. -/
def numToString : Option Int → String
  | none => "NaN"
  | some n => toString n

/-- String.prototype.padStart with a one-character filler. -/
def padStart (s : String) (size : Nat) (c : Char) : String :=
  String.mk (List.replicate (size - s.length) c) ++ s

/-- The local `pad` of `formatStart`: `num.toString().padStart(size, '0')`. -/
def pad (num : Option Int) (size : Nat) : String :=
  padStart (numToString num) size '0'

/-- The function `formatStart(time)` of playlistManager.js. -/
def formatStart (time : JsDate) : String :=
  let date : JsDate := time
  let month := pad ((getUTCMonth date).map (· + 1)) 2
  let day := pad (getUTCDate date) 2
  let year := getUTCFullYear date
  let hours := pad (getUTCHours date) 2
  let minutes := pad (getUTCMinutes date) 2
  let seconds := pad (getUTCSeconds date) 2
  month ++ "/" ++ day ++ "/" ++ numToString year ++ " " ++ hours ++ ":" ++ minutes ++ ":"
    ++ seconds ++ ":00"

/-- A number below 100 written with exactly two decimal digits. -/
def twoDigits (n : Int) : List Char :=
  [Nat.digitChar (n / 10).toNat, Nat.digitChar (n % 10).toNat]

/-- A number below 10000 written with exactly four decimal digits. -/
def fourDigits (n : Int) : List Char :=
  [Nat.digitChar (n / 1000).toNat, Nat.digitChar (n / 100 % 10).toNat,
   Nat.digitChar (n / 10 % 10).toNat, Nat.digitChar (n % 10).toNat]

/-- The text `MM/DD/YYYY HH:MM:SS:00` of the UTC fields of `t`. -/
def startTimeText (t : Int) : String :=
  String.mk (twoDigits (MonthFromTime t + 1) ++ ['/'] ++ twoDigits (DateFromTime t) ++ ['/']
    ++ fourDigits (YearFromTime t) ++ [' '] ++ twoDigits (HourFromTime t) ++ [':']
    ++ twoDigits (MinFromTime t) ++ [':'] ++ twoDigits (SecFromTime t) ++ [':', '0', '0'])

/-! ## JavaScript values and numbers -/

/-- The values an optional argument takes here. -/
inductive JsVal where
  | null
  | undefined
  | num (n : Int)
  | str (s : String)
  deriving DecidableEq

/-- ToString, as a template literal applies it. -/
def JsVal.toStr : JsVal → String
  | .null => "null"
  | .undefined => "undefined"
  | .num n => toString n
  | .str s => s

/-- An exact fraction `num / den` with `den` positive: the value of an arithmetic
expression that divides by a positive whole number. -/
structure Frac where
  num : Int
  den : Nat
  deriving DecidableEq

namespace Frac

def ofInt (n : Int) : Frac := ⟨n, 1⟩

def add (a b : Frac) : Frac := ⟨a.num * b.den + b.num * a.den, a.den * b.den⟩

def sub (a b : Frac) : Frac := ⟨a.num * b.den - b.num * a.den, a.den * b.den⟩

def mul (a b : Frac) : Frac := ⟨a.num * b.num, a.den * b.den⟩

/-- Division by a positive whole number. -/
def divNat (a : Frac) (k : Nat) : Frac := ⟨a.num, a.den * k⟩

/-- The order `a ≤ b`. -/
def le (a b : Frac) : Prop := a.num * b.den ≤ b.num * a.den

instance (a b : Frac) : Decidable (le a b) := by unfold le; infer_instance

/-- ToIntegerOrInfinity: the fraction rounded toward zero. -/
def trunc (a : Frac) : Int :=
  if 0 ≤ a.num then a.num / a.den else -((-a.num) / a.den)

end Frac

/-- The date `new Date(x)` for a number `x`: TimeClip, then the whole milliseconds. -/
def dateOfNumber (x : Frac) : JsDate :=
  if Frac.le (Frac.ofInt (-8640000000000000)) x ∧ Frac.le x (Frac.ofInt 8640000000000000)
  then some x.trunc else none

/-- The wait of `setTimeout(f, x)` in Node.js: `x` outside `1 ≤ x ≤ 2^31 - 1` counts
as 1, and the timer list keeps whole milliseconds. -/
def timerDelay (x : Frac) : Int :=
  if Frac.le (Frac.ofInt 1) x ∧ Frac.le x (Frac.ofInt 2147483647) then x.trunc else 1

/-! ## Local time (fixed offset `tz`) -/

def LocalTime (tz t : Int) : Int := t + tz

def UTC (tz t : Int) : Int := t - tz

def getSeconds (tz : Int) (d : JsDate) : Option Int :=
  d.map (fun t => SecFromTime (LocalTime tz t))

/-- Date.prototype.setSeconds(sec): the new time value of the date. -/
def setSeconds (tz : Int) (d : JsDate) (sec : Option Int) : JsDate :=
  match d, sec with
  | some t, some s =>
    let lt := LocalTime tz t
    let date := MakeDate (Day lt) (MakeTime (HourFromTime lt) (MinFromTime lt) s (msFromTime lt))
    TimeClip (UTC tz date)
  | _, _ => none

/-! ## exec.js -/

/-- What one run of the external process does: the error handed to the callback
(if any), its two output streams, and the milliseconds it takes. -/
structure ProcOutcome where
  err : Option String
  stdout : String
  stderr : String
  latency : Nat

/-- The external process: its behaviour at a dispatch instant on a command line. -/
abbrev Dispatcher := Int → String → ProcOutcome

/-- The promise `execPromise(command)`: rejected with the error, else resolved to
both streams. -/
def execPromise (p : Dispatcher) (t : Int) (command : String) : Except String (String × String) :=
  match (p t command).err with
  | some err => .error err
  | none => .ok ((p t command).stdout, (p t command).stderr)

def fullCommandOf (command : String) : String :=
  "\"C:/Program Files (x86)/TWC/i2/exec.exe\" -async " ++ command

/-- The call `i2exec(command)` dispatched at instant `t`: how its promise settles
(`.ok none` is a promise fulfilled with `null`). -/
def i2exec (p : Dispatcher) (t : Int) (command : String) : Except String (Option String) :=
  match execPromise p t (fullCommandOf command) with
  | .ok (stdout, stderr) => if stderr ≠ "" then .ok none else .ok (some stdout)
  | .error _ => .ok none

/-- The instant at which `i2exec(command)` dispatched at `t` settles. -/
def execDone (p : Dispatcher) (t : Int) (command : String) : Int :=
  t + (p t (fullCommandOf command)).latency

/-! ## Dispatch traces -/

/-- A command handed to `exec` at an instant. -/
structure Event where
  time : Int
  cmd : String
  deriving DecidableEq

/-- A `setTimeout` call: when it is made, the delay asked for (ms) and the instant
the callback runs. -/
structure Timer where
  setAt : Int
  delay : Frac
  firesAt : Int
  deriving DecidableEq

/-- A flow of control: its clock and the commands it has dispatched. -/
structure Run where
  clock : Int
  sent : List Event

/-- The step `await exec(cmd)`: dispatch now, resume when the promise settles. -/
def Run.exec (p : Dispatcher) (r : Run) (cmd : String) : Except String (Option String) × Run :=
  (i2exec p r.clock cmd, ⟨execDone p r.clock cmd, r.sent ++ [⟨r.clock, cmd⟩]⟩)

/-- The loop `for (let c of cmds) await exec(c)`; a rejection leaves the loop. -/
def Run.execAll (p : Dispatcher) : Run → List String → Except String Unit × Run
  | r, [] => (.ok (), r)
  | r, c :: cs =>
    match r.exec p c with
    | (.ok _, r1) => Run.execAll p r1 cs
    | (.error e, r1) => (.error e, r1)

/-- A timer callback `cmds.forEach(async c => await exec(c))` running at `t`: every
command is dispatched at `t`, in order, and no outcome is looked at. -/
def wave (t : Int) (cmds : List String) : List Event := cmds.map (fun c => ⟨t, c⟩)

/-- The commands of two timers set together, in firing order: the earlier timer
first, the one set first when both are due at the same instant. -/
def fireTwo (t1 : Int) (e1 : List Event) (t2 : Int) (e2 : List Event) : List Event :=
  if t1 ≤ t2 then e1 ++ e2 else e2 ++ e1

/-- The clock, the zone and the device of a call. -/
structure World where
  now : Int
  tz : Int
  proc : Dispatcher

/-- What a call leaves behind. -/
structure Outcome where
  /-- The value the promise resolves to, `none` for `null`. -/
  result : Option String
  resolvedAt : Int
  /-- The commands dispatched before the call resolved, in order. -/
  primary : List Event
  /-- The commands dispatched by timer callbacks, in order. -/
  deferred : List Event
  /-- Every timer of the call, in the order set. -/
  timers : List Timer

/-- Every command of a call in dispatch order. -/
def Outcome.dispatched (o : Outcome) : List Event := o.primary ++ o.deferred

/-! ## playlistManager.js -/

/-- An entry of `cancelInfo`. -/
structure CancelInfo where
  id : String

/-- An entry of `startInfo`. -/
structure StartInfo where
  id : String
  flavor : String
  duration : Int

/-- The arguments of `handlePlaylist`; `none` is `null` for `delay` and `null` or
`undefined` for the two lists. -/
structure Request where
  flavor : String
  duration : Int
  id : String
  tag : JsVal
  delay : Option Int
  cancelInfo : Option (List CancelInfo)
  startInfo : Option (List StartInfo)

/-- The constant `loadCommand` of line 49. -/
def loadCommandOf (req : Request) : String :=
  "loadPres(\"Flavor=" ++ req.flavor ++ ",Duration=" ++ toString req.duration
    ++ ",PresentationId=" ++ req.id
    ++ (if req.tag ≠ .null ∧ req.tag ≠ .undefined ∧ req.tag ≠ .num 0 ∧ req.tag ≠ .str "0"
        then ",Logo=" ++ req.tag.toStr else "")
    ++ "\")"

/-- The variable `time` after lines 50 to 53. -/
def runTimeOf (w : World) (req : Request) : JsDate :=
  let time : JsDate := some w.now
  match req.delay with
  | some delay => setSeconds w.tz time ((getSeconds w.tz time).map (fun s => s + delay + 2))
  | none => time

/-- The constant `runCommand` of line 54. -/
def runCommandOf (w : World) (req : Request) : String :=
  "runPres(\"PresentationId=" ++ req.id ++ ",StartTime=" ++ formatStart (runTimeOf w req) ++ "\")"

/-- The list `cancelCommands` after lines 58 to 63. -/
def cancelCommandsOf (w : World) (req : Request) : List String :=
  match req.cancelInfo with
  | some cancelInfo =>
    cancelInfo.map (fun c =>
      let cancelTime : JsDate := runTimeOf w req
      "cancelPres(\"PresentationId=" ++ c.id ++ ",StartTime=" ++ formatStart cancelTime ++ "\")")
  | none => []

/-- The number `delay * 1000`, `null` counting as 0. -/
def delayMs (delay : Option Int) : Int :=
  match delay with
  | some d => d * 1000
  | none => 0

/-- The number `startTime` of line 67. -/
def followStartOf (w : World) (req : Request) : Frac :=
  ((Frac.ofInt w.now).add (((Frac.ofInt req.duration).divNat 30).mul (Frac.ofInt 1000))).add
    (Frac.ofInt (delayMs req.delay + 2000))

/-- The load command of a follow-on entry (line 68, first component). -/
def followLoadOf (c : StartInfo) : String :=
  "loadPres(\"Flavor=" ++ c.flavor ++ ",Duration=" ++ toString c.duration ++ ",PresentationId="
    ++ c.id ++ "\")"

/-- The run command of a follow-on entry (line 68, second component). -/
def followRunOf (w : World) (req : Request) (c : StartInfo) : String :=
  "runPres(\"PresentationId=" ++ c.id ++ ",StartTime="
    ++ formatStart (dateOfNumber (followStartOf w req)) ++ "\")"

/-- The list `startCommands` after lines 65 to 70. -/
def startCommandsOf (w : World) (req : Request) : List (String × String) :=
  match req.startInfo with
  | some startInfo => startInfo.map (fun c => (followLoadOf c, followRunOf w req c))
  | none => []

/-- The delay `(duration / 30 - secs) * 1000` of a follow-on wave. -/
def waveDelayOf (duration secs : Int) : Frac :=
  (((Frac.ofInt duration).divNat 30).sub (Frac.ofInt secs)).mul (Frac.ofInt 1000)

/-- The text a handled call resolves to (line 107). -/
def handled : String := "Successfully handled playlist."

/-- The function `handlePlaylist(flavor, duration, id, tag, delay, cancelInfo, startInfo)`:
the `try` block runs the load, the cancels and then the branch on `delay`; a rejected
`exec` would reach the `catch`, which returns `null`. -/
def handlePlaylist (w : World) (req : Request) : Outcome :=
  let loadCommand := loadCommandOf req
  let runCommand := runCommandOf w req
  let cancelCommands := cancelCommandsOf w req
  let startCommands := startCommandsOf w req
  let p := w.proc
  match Run.exec p ⟨w.now, []⟩ loadCommand with
  | (.error _, r1) => ⟨none, r1.clock, r1.sent, [], []⟩
  | (.ok _, r1) =>
    match Run.execAll p r1 cancelCommands with
    | (.error _, r2) => ⟨none, r2.clock, r2.sent, [], []⟩
    | (.ok _, r2) =>
      match req.delay with
      | some _ =>
        let outer : Timer := ⟨r2.clock, Frac.ofInt 5000, r2.clock + timerDelay (Frac.ofInt 5000)⟩
        match Run.exec p ⟨outer.firesAt, []⟩ runCommand with
        | (.error _, r3) => ⟨some handled, r2.clock, r2.sent, r3.sent, [outer]⟩
        | (.ok _, r3) =>
          let d1 := waveDelayOf req.duration 25
          let d2 := waveDelayOf req.duration 10
          let t1 : Timer := ⟨r3.clock, d1, r3.clock + timerDelay d1⟩
          let t2 : Timer := ⟨r3.clock, d2, r3.clock + timerDelay d2⟩
          ⟨some handled, r2.clock, r2.sent,
            r3.sent ++ fireTwo t1.firesAt (wave t1.firesAt (startCommands.map Prod.fst))
              t2.firesAt (wave t2.firesAt (startCommands.map Prod.snd)),
            [outer, t1, t2]⟩
      | none =>
        match Run.exec p r2 runCommand with
        | (.error _, r3) => ⟨none, r3.clock, r3.sent, [], []⟩
        | (.ok _, r3) =>
          let d1 := waveDelayOf req.duration 25
          let d2 := Frac.ofInt 5000
          let t1 : Timer := ⟨r3.clock, d1, r3.clock + timerDelay d1⟩
          let t2 : Timer := ⟨r3.clock, d2, r3.clock + timerDelay d2⟩
          ⟨some handled, r3.clock, r3.sent,
            fireTwo t1.firesAt (wave t1.firesAt (startCommands.map Prod.fst))
              t2.firesAt (wave t2.firesAt (startCommands.map Prod.snd)),
            [t1, t2]⟩

/-- The function `loadRunPres(flavor, duration, id, tag)`: the command handed to
`exec` and the settled promise. -/
def loadRunPres (p : Dispatcher) (t : Int) (flavor : String) (duration : Int) (id : String)
    (tag : JsVal) : String × Except String (Option String) :=
  let command := "loadRunPres(\"Flavor=" ++ flavor ++ ",Duration=" ++ toString duration
    ++ ",PresentationId=" ++ id
    ++ (if (tag ≠ .null ∧ tag ≠ .undefined) ∧ tag ≠ .num 0 then ",Logo=" ++ tag.toStr else "")
    ++ ")"
  (command, i2exec p t command)

/-- The function `loadPres(flavor, duration, id, tag)`. -/
def loadPres (p : Dispatcher) (t : Int) (flavor : String) (duration : Int) (id : String)
    (tag : JsVal) : String × Except String (Option String) :=
  let command := "loadPres(\"Flavor=" ++ flavor ++ ",Duration=" ++ toString duration
    ++ ",PresentationId=" ++ id
    ++ (if (tag ≠ .null ∧ tag ≠ .undefined) ∧ tag ≠ .num 0 then ",Logo=" ++ tag.toStr else "")
    ++ "\")"
  (command, i2exec p t command)

/-! ## data.js, bundle.js, sys.js

Each wrapper awaits `exec` inside a `try` and returns `true`; its `catch` returns
`null`. Below `some true` is `true` and `none` is `null`. -/

/-- The body shared by the wrappers: `true` once the awaited `exec` has settled,
`null` from the `catch` when it was rejected. -/
def trueUnlessThrown (settled : Except String (Option String)) : Option Bool :=
  match settled with
  | .ok _ => some true
  | .error _ => none

def storeData (p : Dispatcher) (t : Int) (filePath : String) (priority : Bool) : Option Bool :=
  trueUnlessThrown (i2exec p t
    ("store" ++ (if priority = true then "Priority" else "") ++ "Data(\"File=" ++ filePath
      ++ "\")"))

def storeImage (p : Dispatcher) (t : Int) (filePath : String) (priority : Bool)
    (extension issueTime imageType location : String) : Option Bool :=
  trueUnlessThrown (i2exec p t
    ("store" ++ (if priority = true then "Priority" else "") ++ "Image(\"File=" ++ filePath
      ++ ",IssueTime=" ++ issueTime ++ ",Location=" ++ location ++ ",imageType=" ++ imageType
      ++ ",FileExtension=" ++ extension ++ "\")"))

/-- The function `send` of bundle.js. -/
def bundleSend (p : Dispatcher) (t : Int) (filePath : String) : Option Bool :=
  trueUnlessThrown (i2exec p t ("stageStarBundle(File=" ++ filePath ++ ")"))

def restartI2Service (p : Dispatcher) (t : Int) : Option Bool :=
  trueUnlessThrown (i2exec p t "restartI2Service(\"r=1\")")

def restartProcess (p : Dispatcher) (t : Int) (processName : String) : Option Bool :=
  trueUnlessThrown (i2exec p t ("restartProcess(\"ProcessName=" ++ processName ++ "\")"))

/-! ## Settled values and sequential dispatch -/

/-- The value `i2exec` resolves to: stdout of a clean run, `null` otherwise. -/
def i2execValue (p : Dispatcher) (t : Int) (command : String) : Option String :=
  match (p t (fullCommandOf command)).err with
  | some _ => none
  | none =>
    if (p t (fullCommandOf command)).stderr ≠ "" then none
    else some (p t (fullCommandOf command)).stdout

/-- The events of commands dispatched one after the other from instant `t`. -/
def seqEvents (p : Dispatcher) : Int → List String → List Event
  | _, [] => []
  | t, c :: cs => ⟨t, c⟩ :: seqEvents p (execDone p t c) cs

/-- The instant at which the last of them settles. -/
def seqDone (p : Dispatcher) : Int → List String → Int
  | t, [] => t
  | t, c :: cs => seqDone p (execDone p t c) cs

/-! ## Sample inputs -/

/-- A device that runs every command at once and without error. -/
def promptDevice : Dispatcher := fun _ _ => ⟨none, "", "", 0⟩

/-- A device whose executable cannot be started. -/
def deadDevice : Dispatcher := fun _ _ => ⟨some "ENOENT", "", "", 0⟩

/-- A device that runs every command but reports on stderr. -/
def noisyDevice : Dispatcher := fun _ _ => ⟨none, "", "not connected", 0⟩

/-- The instant 2025-02-05T14:15:00.000Z. -/
def sampleNow : Int := 1738764900000

/-- The request of the documentation of `handlePlaylist`. -/
def docRequest : Request :=
  ⟨"domestic/V", 1950, "4", .str "domesticAds/TAG3631", some 10, some [⟨"ldl3"⟩, ⟨"sidebar2"⟩],
    some [⟨"ldl3", "domestic/ldlE", 72000⟩]⟩

/-- A request with a `null` delay, one cancellation and no follow-on. -/
def cancelRequest : Request := ⟨"domestic/V", 1950, "4", .null, none, some [⟨"ldl3"⟩], none⟩

/-- A request with a `null` delay, no cancellation and no follow-on. -/
def plainRequest : Request := ⟨"domestic/V", 1950, "4", .null, none, none, none⟩

/-- A command carries a StartTime parameter. -/
def carriesStartTime (cmd : String) : Prop := ",StartTime=".data <:+: cmd.data

instance (cmd : String) : Decidable (carriesStartTime cmd) := by
  unfold carriesStartTime; infer_instance

/-! ## Calendar facts -/

theorem dayFromYear_succ (y : Int) : DayFromYear (y + 1) = DayFromYear y + DaysInYear y := by
  unfold DayFromYear DaysInYear
  split_ifs <;> omega

theorem dayFromYear_cycles (a i b j : Int) (hi : 0 ≤ i) (hi3 : i ≤ 3) (hb : 0 ≤ b)
    (hb24 : b ≤ 24) (hj : 0 ≤ j) (hj3 : j ≤ 3) :
    DayFromYear (1601 + 400 * a + 100 * i + 4 * b + j)
      = 146097 * a + 36524 * i + 1461 * b + 365 * j - 134774 := by
  unfold DayFromYear
  have h1 : (1601 + 400 * a + 100 * i + 4 * b + j - 1601) / 400 = a := by omega
  have h2 : (1601 + 400 * a + 100 * i + 4 * b + j - 1901) / 100 = 4 * a + i - 3 := by omega
  have h3 : (1601 + 400 * a + 100 * i + 4 * b + j - 1969) / 4 = 100 * a + 25 * i + b - 92 := by
    omega
  rw [h1, h2, h3]
  ring

/-- The computed year is the one ECMA-262 defines: the year whose first day is the
last first-of-year not after the day. -/
theorem yearOfDay_spec (d : Int) :
    DayFromYear (yearOfDay d) ≤ d ∧ d < DayFromYear (yearOfDay d) + DaysInYear (yearOfDay d) := by
  unfold yearOfDay
  simp only
  generalize ha : (d + 134774) / 146097 = a
  generalize hr : (d + 134774) % 146097 = r
  generalize hi : min (r / 36524) 3 = i
  generalize hb : (r - i * 36524) / 1461 = b
  generalize hs : (r - i * 36524) % 1461 = s
  generalize hj : min (s / 365) 3 = j
  have i0 : 0 ≤ i := by omega
  have i3 : i ≤ 3 := by omega
  have b0 : 0 ≤ b := by omega
  have b24 : b ≤ 24 := by omega
  have j0 : 0 ≤ j := by omega
  have j3 : j ≤ 3 := by omega
  rw [dayFromYear_cycles a i b j i0 i3 b0 b24 j0 j3]
  unfold DaysInYear
  split_ifs <;> omega

theorem dayWithinYear_range (t : Int) :
    0 ≤ DayWithinYear t ∧ DayWithinYear t < 365 + InLeapYear t := by
  have h := yearOfDay_spec (Day t)
  have hd : DaysInYear (yearOfDay (Day t)) = 365 ∨ DaysInYear (yearOfDay (Day t)) = 366 := by
    unfold DaysInYear
    split_ifs <;> omega
  unfold DayWithinYear InLeapYear YearFromTime
  split_ifs <;> omega

theorem ite_cases_int {c : Prop} [Decidable c] (a b : Int) (P : Int → Prop)
    (h1 : c → P a) (h2 : ¬c → P b) : P (if c then a else b) := by
  by_cases h : c
  · rw [if_pos h]; exact h1 h
  · rw [if_neg h]; exact h2 h

theorem monthOfDay_range (d l : Int) : 0 ≤ monthOfDay d l ∧ monthOfDay d l ≤ 11 := by
  unfold monthOfDay
  repeat' (apply ite_cases_int _ _ (fun m => 0 ≤ m ∧ m ≤ 11) <;> intro _)
  all_goals omega

theorem dateOfDay_range (d l : Int) (h0 : 0 ≤ d) (h1 : d < 365 + l) (hl : l = 0 ∨ l = 1) :
    1 ≤ dateOfDay (monthOfDay d l) d l ∧ dateOfDay (monthOfDay d l) d l ≤ 31 := by
  unfold monthOfDay
  repeat' (apply ite_cases_int _ _ (fun m => 1 ≤ dateOfDay m d l ∧ dateOfDay m d l ≤ 31) <;> intro _)
  all_goals unfold dateOfDay
  all_goals repeat' (apply ite_cases_int _ _ (fun m => 1 ≤ m ∧ m ≤ 31) <;> intro _)
  all_goals omega

theorem monthFromTime_range (t : Int) : 0 ≤ MonthFromTime t ∧ MonthFromTime t ≤ 11 :=
  monthOfDay_range _ _

theorem dateFromTime_range (t : Int) : 1 ≤ DateFromTime t ∧ DateFromTime t ≤ 31 := by
  have h := dayWithinYear_range t
  have hl : InLeapYear t = 0 ∨ InLeapYear t = 1 := by
    unfold InLeapYear
    by_cases hc : DaysInYear (YearFromTime t) = 366
    · rw [if_pos hc]; exact Or.inr rfl
    · rw [if_neg hc]; exact Or.inl rfl
  exact dateOfDay_range _ _ h.1 h.2 hl

/-! ## Decimal rendering -/

theorem toDigitsCore_step (f n : Nat) (ds : List Char) :
    Nat.toDigitsCore 10 (f + 1) n ds =
      if n / 10 = 0 then Nat.digitChar (n % 10) :: ds
      else Nat.toDigitsCore 10 f (n / 10) (Nat.digitChar (n % 10) :: ds) := rfl

theorem repr_four (m : Nat) (h1 : 1000 ≤ m) (h2 : m ≤ 9999) :
    Nat.repr m = String.mk [Nat.digitChar (m / 1000), Nat.digitChar (m / 100 % 10),
      Nat.digitChar (m / 10 % 10), Nat.digitChar (m % 10)] := by
  obtain ⟨k, rfl⟩ : ∃ k, m = k + 1000 := ⟨m - 1000, by omega⟩
  have e1 : (k + 1000) / 10 / 10 / 10 / 10 = 0 := by omega
  have e2 : (k + 1000) / 10 / 10 / 10 ≠ 0 := by omega
  have e3 : (k + 1000) / 10 / 10 ≠ 0 := by omega
  have e4 : (k + 1000) / 10 ≠ 0 := by omega
  have d1 : (k + 1000) / 10 / 10 / 10 % 10 = (k + 1000) / 1000 := by omega
  have d2 : (k + 1000) / 10 / 10 % 10 = (k + 1000) / 100 % 10 := by omega
  have hf : k + 1000 + 1 = (k + 997) + 1 + 1 + 1 + 1 := by omega
  unfold Nat.repr Nat.toDigits
  rw [hf, toDigitsCore_step, if_neg e4, toDigitsCore_step, if_neg e3, toDigitsCore_step,
    if_neg e2, toDigitsCore_step, if_pos e1, d1, d2]
  rfl

theorem repr_two (m : Nat) (h : m < 100) :
    String.mk (List.replicate (2 - (Nat.repr m).length) '0') ++ Nat.repr m
      = String.mk [Nat.digitChar (m / 10), Nat.digitChar (m % 10)] := by
  interval_cases m <;> rfl

theorem pad_two (n : Int) (h0 : 0 ≤ n) (h1 : n < 100) : pad (some n) 2 = String.mk (twoDigits n) := by
  obtain ⟨m, rfl⟩ := Int.eq_ofNat_of_zero_le h0
  have hm : m < 100 := by omega
  have e1 : ((m : Int) / 10).toNat = m / 10 := by omega
  have e2 : ((m : Int) % 10).toNat = m % 10 := by omega
  unfold twoDigits
  rw [e1, e2, ← repr_two m hm]
  rfl

theorem numToString_four (n : Int) (h0 : 1000 ≤ n) (h1 : n ≤ 9999) :
    numToString (some n) = String.mk (fourDigits n) := by
  obtain ⟨m, rfl⟩ := Int.eq_ofNat_of_zero_le (by omega : 0 ≤ n)
  have e1 : ((m : Int) / 1000).toNat = m / 1000 := by omega
  have e2 : ((m : Int) / 100 % 10).toNat = m / 100 % 10 := by omega
  have e3 : ((m : Int) / 10 % 10).toNat = m / 10 % 10 := by omega
  have e4 : ((m : Int) % 10).toNat = m % 10 := by omega
  unfold fourDigits
  rw [e1, e2, e3, e4, ← repr_four m (by omega) (by omega)]
  rfl

/-- C3. For an instant whose UTC year has four digits, `formatStart` is the text
`MM/DD/YYYY HH:MM:SS:00` of the UTC month plus one, day, year, hour, minute and
second, the five short fields with exactly two digits and the year with four, and
each field in its calendar range; 2025-02-05T14:15:00.000Z gives
`02/05/2025 14:15:00:00`. -/
theorem formatStart_fixed_width (t : Int) (hlo : 1000 ≤ YearFromTime t)
    (hhi : YearFromTime t ≤ 9999) :
    formatStart (some t) = startTimeText t
    ∧ (startTimeText t).length = 22
    ∧ (1 ≤ MonthFromTime t + 1 ∧ MonthFromTime t + 1 ≤ 12)
    ∧ (1 ≤ DateFromTime t ∧ DateFromTime t ≤ 31)
    ∧ (0 ≤ HourFromTime t ∧ HourFromTime t ≤ 23)
    ∧ (0 ≤ MinFromTime t ∧ MinFromTime t ≤ 59)
    ∧ (0 ≤ SecFromTime t ∧ SecFromTime t ≤ 59)
    ∧ formatStart (some 1738764900000) = "02/05/2025 14:15:00:00" := by
  have hm := monthFromTime_range t
  have hd := dateFromTime_range t
  have hh : 0 ≤ HourFromTime t ∧ HourFromTime t ≤ 23 := by unfold HourFromTime; omega
  have hmi : 0 ≤ MinFromTime t ∧ MinFromTime t ≤ 59 := by unfold MinFromTime; omega
  have hs : 0 ≤ SecFromTime t ∧ SecFromTime t ≤ 59 := by unfold SecFromTime; omega
  refine ⟨?_, rfl, ⟨by omega, by omega⟩, hd, hh, hmi, hs, by decide⟩
  unfold formatStart startTimeText
  simp only [getUTCMonth, getUTCDate, getUTCFullYear, getUTCHours, getUTCMinutes, getUTCSeconds,
    Option.map_some']
  rw [pad_two _ (by omega) (by omega), pad_two _ (by omega) (by omega),
    pad_two _ hh.1 (by omega), pad_two _ hmi.1 (by omega), pad_two _ hs.1 (by omega),
    numToString_four _ hlo hhi]
  rfl

/-- Witness of C3 at 2025-02-05T14:15:00.000Z. -/
theorem formatStart_fixed_width_witness :
    1000 ≤ YearFromTime 1738764900000 ∧ YearFromTime 1738764900000 ≤ 9999
    ∧ formatStart (some 1738764900000) = startTimeText 1738764900000
    ∧ startTimeText 1738764900000 = "02/05/2025 14:15:00:00" :=
  ⟨by decide, by decide,
    (formatStart_fixed_width 1738764900000 (by decide) (by decide)).1, by decide⟩

/-! ## The dispatcher never rejects -/

theorem i2exec_eq (p : Dispatcher) (t : Int) (command : String) :
    i2exec p t command = .ok (i2execValue p t command) := by
  unfold i2exec i2execValue execPromise
  cases h : (p t (fullCommandOf command)).err with
  | some e => rfl
  | none =>
    by_cases hs : (p t (fullCommandOf command)).stderr = ""
    · simp [hs]
    · simp [hs]

theorem execAll_eq (p : Dispatcher) (cs : List String) (r : Run) :
    Run.execAll p r cs = (.ok (), ⟨seqDone p r.clock cs, r.sent ++ seqEvents p r.clock cs⟩) := by
  induction cs generalizing r with
  | nil => simp [Run.execAll, seqDone, seqEvents]
  | cons c cs ih =>
    simp only [Run.execAll, Run.exec, i2exec_eq, seqDone, seqEvents]
    rw [ih]
    simp

theorem execDone_ge (p : Dispatcher) (t : Int) (c : String) : t ≤ execDone p t c := by
  unfold execDone
  omega

theorem seqDone_ge (p : Dispatcher) (cs : List String) (t : Int) : t ≤ seqDone p t cs := by
  induction cs generalizing t with
  | nil => exact le_refl t
  | cons c cs ih => exact le_trans (execDone_ge p t c) (ih _)

theorem seqEvents_cmd (p : Dispatcher) (cs : List String) (t : Int) :
    (seqEvents p t cs).map Event.cmd = cs := by
  induction cs generalizing t with
  | nil => rfl
  | cons c cs ih => simp [seqEvents, ih]

theorem seqEvents_time (p : Dispatcher) (cs : List String) (t : Int) :
    ∀ ev ∈ seqEvents p t cs, t ≤ ev.time ∧ ev.time ≤ seqDone p t cs := by
  induction cs generalizing t with
  | nil => intro ev h; simp [seqEvents] at h
  | cons c cs ih =>
    intro ev h
    simp only [seqEvents, List.mem_cons] at h
    rcases h with h | h
    · subst h
      exact ⟨le_refl t, le_trans (execDone_ge p t c) (seqDone_ge p cs _)⟩
    · have := ih _ ev h
      exact ⟨le_trans (execDone_ge p t c) this.1, this.2⟩

theorem timerDelay_5000 : timerDelay (Frac.ofInt 5000) = 5000 := by decide

/-- The outcome of a call with a delay, written out. -/
theorem handlePlaylist_delay (w : World) (req : Request) (d : Int) (h : req.delay = some d) :
    handlePlaylist w req =
      let t1 := execDone w.proc w.now (loadCommandOf req)
      let t2 := seqDone w.proc t1 (cancelCommandsOf w req)
      let t3 := execDone w.proc (t2 + 5000) (runCommandOf w req)
      let d1 := waveDelayOf req.duration 25
      let d2 := waveDelayOf req.duration 10
      ⟨some handled, t2,
        ⟨w.now, loadCommandOf req⟩ :: seqEvents w.proc t1 (cancelCommandsOf w req),
        ⟨t2 + 5000, runCommandOf w req⟩ ::
          fireTwo (t3 + timerDelay d1)
            (wave (t3 + timerDelay d1) ((startCommandsOf w req).map Prod.fst))
            (t3 + timerDelay d2)
            (wave (t3 + timerDelay d2) ((startCommandsOf w req).map Prod.snd)),
        [⟨t2, Frac.ofInt 5000, t2 + 5000⟩, ⟨t3, d1, t3 + timerDelay d1⟩,
          ⟨t3, d2, t3 + timerDelay d2⟩]⟩ := by
  simp only [handlePlaylist, Run.exec, i2exec_eq, execAll_eq, h, timerDelay_5000,
    List.nil_append, List.singleton_append]

/-- The outcome of a call with a `null` delay, written out. -/
theorem handlePlaylist_null (w : World) (req : Request) (h : req.delay = none) :
    handlePlaylist w req =
      let t1 := execDone w.proc w.now (loadCommandOf req)
      let t2 := seqDone w.proc t1 (cancelCommandsOf w req)
      let t3 := execDone w.proc t2 (runCommandOf w req)
      let d1 := waveDelayOf req.duration 25
      ⟨some handled, t3,
        ⟨w.now, loadCommandOf req⟩ :: (seqEvents w.proc t1 (cancelCommandsOf w req)
          ++ [⟨t2, runCommandOf w req⟩]),
        fireTwo (t3 + timerDelay d1)
          (wave (t3 + timerDelay d1) ((startCommandsOf w req).map Prod.fst))
          (t3 + 5000)
          (wave (t3 + 5000) ((startCommandsOf w req).map Prod.snd)),
        [⟨t3, d1, t3 + timerDelay d1⟩, ⟨t3, Frac.ofInt 5000, t3 + 5000⟩]⟩ := by
  simp only [handlePlaylist, Run.exec, i2exec_eq, execAll_eq, h, timerDelay_5000,
    List.nil_append, List.singleton_append, List.append_assoc, List.cons_append]

theorem runTimeOf_null (w : World) (req : Request) (h : req.delay = none) :
    runTimeOf w req = some w.now := by
  unfold runTimeOf
  rw [h]

/-! ## Failure of the device (C1, C9) -/

/-- The call never resolves to `null`: no failure of the device reaches the `catch`. -/
theorem handlePlaylist_result (w : World) (req : Request) :
    (handlePlaylist w req).result = some handled := by
  cases h : req.delay with
  | none => rw [handlePlaylist_null w req h]
  | some d => rw [handlePlaylist_delay w req d h]

theorem trueUnlessThrown_i2exec (p : Dispatcher) (t : Int) (command : String) :
    trueUnlessThrown (i2exec p t command) = some true := by
  rw [i2exec_eq]
  rfl

/-- C1, as the code behaves on a failing device. The executable cannot be started, so
the load command fails (`exec` yields `null`) and so does every later command; the
cancel command and the run command are dispatched all the same and the call resolves
to "Successfully handled playlist.", not to `null`. A device that reports on stderr
gives the same three commands and the same result. -/
theorem handlePlaylist_goes_on_after_load_failure :
    i2execValue deadDevice sampleNow (loadCommandOf cancelRequest) = none
    ∧ (handlePlaylist ⟨sampleNow, 0, deadDevice⟩ cancelRequest).dispatched.map Event.cmd
        = ["loadPres(\"Flavor=domestic/V,Duration=1950,PresentationId=4\")",
           "cancelPres(\"PresentationId=ldl3,StartTime=02/05/2025 14:15:00:00\")",
           "runPres(\"PresentationId=4,StartTime=02/05/2025 14:15:00:00\")"]
    ∧ (handlePlaylist ⟨sampleNow, 0, deadDevice⟩ cancelRequest).result
        = some "Successfully handled playlist."
    ∧ (handlePlaylist ⟨sampleNow, 0, deadDevice⟩ cancelRequest).result ≠ none
    ∧ i2execValue noisyDevice sampleNow (loadCommandOf cancelRequest) = none
    ∧ (handlePlaylist ⟨sampleNow, 0, noisyDevice⟩ cancelRequest).dispatched.length = 3
    ∧ (handlePlaylist ⟨sampleNow, 0, noisyDevice⟩ cancelRequest).result
        = some "Successfully handled playlist." := by
  decide

/-- C9, as the code behaves on a failing device. Whether the executable cannot be
started or reports on stderr, `exec` yields `null` and each of the five wrappers
returns `true`, not `null`. -/
theorem wrappers_return_true_on_failure :
    i2execValue deadDevice 0 "storeData(\"File=C:/i2/Localscan/temp/BERecord.i2m\")" = none
    ∧ storeData deadDevice 0 "C:/i2/Localscan/temp/BERecord.i2m" false = some true
    ∧ storeImage deadDevice 0 "C:/i2/Localscan/temp/radar.tiff" true ".tiff"
        "02/05/2025 14:15:00" "Radar" "US" = some true
    ∧ bundleSend deadDevice 0 "C:/starbundle.zip" = some true
    ∧ restartI2Service deadDevice 0 = some true
    ∧ restartProcess deadDevice 0 "I2jPipeline" = some true
    ∧ i2execValue noisyDevice 0 "restartProcess(\"ProcessName=I2jPipeline\")" = none
    ∧ restartProcess noisyDevice 0 "I2jPipeline" = some true
    ∧ storeData noisyDevice 0 "C:/i2/Localscan/temp/BERecord.i2m" false = some true := by
  decide

/-! ## Command texts (C4, C10) -/

/-- C10, as the code builds the command. `loadRunPres('domestic/Azul', 1800, '4', null)`
hands `exec` a command whose argument opens with a double quote and is never closed:
it is not the command of the documentation of `exec`. -/
theorem loadRunPres_leaves_quote_open :
    (loadRunPres promptDevice 0 "domestic/Azul" 1800 "4" .null).1
      = "loadRunPres(\"Flavor=domestic/Azul,Duration=1800,PresentationId=4)"
    ∧ (loadRunPres promptDevice 0 "domestic/Azul" 1800 "4" .null).1
      ≠ "loadRunPres(\"Flavor=domestic/Azul,Duration=1800,PresentationId=4\")"
    ∧ (loadPres promptDevice 0 "domestic/Azul" 1800 "4" .null).1
      = "loadPres(\"Flavor=domestic/Azul,Duration=1800,PresentationId=4\")" := by
  decide

theorem handlePlaylist_first (w : World) (req : Request) :
    (handlePlaylist w req).dispatched.head? = some ⟨w.now, loadCommandOf req⟩ := by
  cases h : req.delay with
  | none => rw [handlePlaylist_null w req h]; rfl
  | some d => rw [handlePlaylist_delay w req d h]; rfl

/-- C4. The first command `handlePlaylist` dispatches is the load command: without a
Logo parameter when the tag is null, undefined, the number 0 or the string "0", and
with `,Logo=<tag>` right before the closing quote for any other non-empty string. -/
theorem load_command_logo (w : World) (req : Request) :
    (req.tag = .null ∨ req.tag = .undefined ∨ req.tag = .num 0 ∨ req.tag = .str "0" →
      (handlePlaylist w req).dispatched.head? = some ⟨w.now,
        "loadPres(\"Flavor=" ++ req.flavor ++ ",Duration=" ++ toString req.duration
          ++ ",PresentationId=" ++ req.id ++ "\")"⟩)
    ∧ (∀ s : String, req.tag = .str s → s ≠ "" → s ≠ "0" →
      (handlePlaylist w req).dispatched.head? = some ⟨w.now,
        "loadPres(\"Flavor=" ++ req.flavor ++ ",Duration=" ++ toString req.duration
          ++ ",PresentationId=" ++ req.id ++ ",Logo=" ++ s ++ "\")"⟩) := by
  rw [handlePlaylist_first]
  unfold loadCommandOf
  constructor
  · intro h
    rcases h with h | h | h | h <;> rw [h] <;> simp
  · intro s h _ h0
    rw [h]
    simp [h0, JsVal.toStr, String.append_assoc]

/-- Witness of C4: the tag `domesticAds/TAG3631`. -/
theorem load_command_logo_witness :
    (handlePlaylist ⟨sampleNow, 0, promptDevice⟩ docRequest).dispatched.head? = some ⟨sampleNow,
      "loadPres(\"Flavor=domestic/V,Duration=1950,PresentationId=4,Logo=domesticAds/TAG3631\")"⟩ :=
  (load_command_logo ⟨sampleNow, 0, promptDevice⟩ docRequest).2 "domesticAds/TAG3631" rfl
    (by decide) (by decide)

/-! ## Start times (C7, C2) -/

theorem cancelCommandsOf_eq (w : World) (req : Request) :
    cancelCommandsOf w req = (req.cancelInfo.getD []).map (fun c =>
      "cancelPres(\"PresentationId=" ++ c.id ++ ",StartTime=" ++ formatStart (runTimeOf w req)
        ++ "\")") := by
  unfold cancelCommandsOf
  cases req.cancelInfo <;> rfl

/-- C2 fails as stated. With a `null` delay, no cancellation and no follow-on the run
command does carry a StartTime, and two timers are set. -/
theorem immediate_run_has_start_time_and_timers :
    (handlePlaylist ⟨sampleNow, 0, promptDevice⟩ plainRequest).dispatched.map Event.cmd
      = ["loadPres(\"Flavor=domestic/V,Duration=1950,PresentationId=4\")",
         "runPres(\"PresentationId=4,StartTime=02/05/2025 14:15:00:00\")"]
    ∧ carriesStartTime "runPres(\"PresentationId=4,StartTime=02/05/2025 14:15:00:00\")"
    ∧ (handlePlaylist ⟨sampleNow, 0, promptDevice⟩ plainRequest).timers.length = 2
    ∧ ¬ ((∃ run : String,
          (handlePlaylist ⟨sampleNow, 0, promptDevice⟩ plainRequest).dispatched.map Event.cmd
            = [loadCommandOf plainRequest, run] ∧ ¬ carriesStartTime run)
        ∧ (handlePlaylist ⟨sampleNow, 0, promptDevice⟩ plainRequest).timers = []) := by
  refine ⟨by decide, by decide, by decide, ?_⟩
  rintro ⟨_, h⟩
  exact absurd h (by decide)

/-- C2, amended. With a `null` delay, no cancellation and no follow-on the commands
dispatched are exactly two, in this order: the load command, then (once the load has
settled) a run command carrying `StartTime=formatStart(now)`; the call resolves to
"Successfully handled playlist."; the two follow-on timers are set all the same, and
their callbacks dispatch nothing. -/
theorem immediate_run_sequence (w : World) (req : Request) (hd : req.delay = none)
    (hc : req.cancelInfo = none ∨ req.cancelInfo = some [])
    (hs : req.startInfo = none ∨ req.startInfo = some []) :
    (handlePlaylist w req).dispatched
      = [⟨w.now, loadCommandOf req⟩,
         ⟨execDone w.proc w.now (loadCommandOf req),
          "runPres(\"PresentationId=" ++ req.id ++ ",StartTime=" ++ formatStart (some w.now)
            ++ "\")"⟩]
    ∧ (handlePlaylist w req).deferred = []
    ∧ (handlePlaylist w req).timers.length = 2
    ∧ (handlePlaylist w req).result = some "Successfully handled playlist." := by
  have hcc : cancelCommandsOf w req = [] := by
    unfold cancelCommandsOf
    rcases hc with h | h <;> simp only [h, List.map_nil]
  have hsc : startCommandsOf w req = [] := by
    unfold startCommandsOf
    rcases hs with h | h <;> simp only [h, List.map_nil]
  have hr : runCommandOf w req = "runPres(\"PresentationId=" ++ req.id ++ ",StartTime="
      ++ formatStart (some w.now) ++ "\")" := by
    rw [runCommandOf, runTimeOf_null w req hd]
  rw [handlePlaylist_null w req hd]
  simp only [Outcome.dispatched, hcc, hsc, hr, seqEvents, seqDone, wave, fireTwo, List.map_nil,
    List.append_nil, List.nil_append, ite_self, List.length_cons, List.length_nil]
  exact ⟨trivial, trivial, trivial, rfl⟩

/-- Witness of C2 amended: the plain request on a prompt device. -/
theorem immediate_run_sequence_witness :
    (handlePlaylist ⟨sampleNow, 0, promptDevice⟩ plainRequest).dispatched
      = [⟨sampleNow, "loadPres(\"Flavor=domestic/V,Duration=1950,PresentationId=4\")"⟩,
         ⟨sampleNow, "runPres(\"PresentationId=4,StartTime=02/05/2025 14:15:00:00\")"⟩]
    ∧ (handlePlaylist ⟨sampleNow, 0, promptDevice⟩ plainRequest).timers.length = 2 :=
  ⟨(immediate_run_sequence ⟨sampleNow, 0, promptDevice⟩ plainRequest rfl (Or.inl rfl)
      (Or.inl rfl)).1.trans (by decide),
    (immediate_run_sequence ⟨sampleNow, 0, promptDevice⟩ plainRequest rfl (Or.inl rfl)
      (Or.inl rfl)).2.2.1⟩

/-! ## Timers and waves -/

theorem waveDelayOf_eq (duration secs : Int) :
    waveDelayOf duration secs = ⟨(duration - 30 * secs) * 1000, 30⟩ := by
  unfold waveDelayOf Frac.mul Frac.sub Frac.divNat Frac.ofInt
  simp only [Frac.mk.injEq]
  constructor
  · push_cast
    ring
  · trivial

theorem timerDelay_wave (duration secs : Int) :
    timerDelay (waveDelayOf duration secs)
      = if 30 ≤ (duration - 30 * secs) * 1000 ∧ (duration - 30 * secs) * 1000 ≤ 64424509410
        then (duration - 30 * secs) * 1000 / 30 else 1 := by
  rw [waveDelayOf_eq]
  unfold timerDelay Frac.le Frac.trunc Frac.ofInt
  simp only [Nat.cast_ofNat, Nat.cast_one, mul_one, one_mul]
  by_cases h : 30 ≤ (duration - 30 * secs) * 1000 ∧ (duration - 30 * secs) * 1000 ≤ 64424509410
  · rw [if_pos h, if_pos (by omega), if_pos (by omega)]
  · rw [if_neg h, if_neg (by omega)]

theorem timerDelay_wave_pos (duration secs : Int) :
    1 ≤ timerDelay (waveDelayOf duration secs) := by
  rw [timerDelay_wave]
  split_ifs <;> omega

theorem mem_fireTwo (ev : Event) (t1 t2 : Int) (e1 e2 : List Event) :
    ev ∈ fireTwo t1 e1 t2 e2 ↔ ev ∈ e1 ∨ ev ∈ e2 := by
  unfold fireTwo
  split_ifs
  · exact List.mem_append
  · rw [List.mem_append]
    exact Or.comm

theorem mem_wave (ev : Event) (t : Int) (cmds : List String) :
    ev ∈ wave t cmds ↔ ev.time = t ∧ ev.cmd ∈ cmds := by
  unfold wave
  constructor
  · intro h
    obtain ⟨c, hc, rfl⟩ := List.mem_map.mp h
    exact ⟨rfl, hc⟩
  · rintro ⟨h1, h2⟩
    exact List.mem_map.mpr ⟨ev.cmd, h2, by rw [← h1]⟩

theorem mem_startCommands_fst (w : World) (req : Request) (cmd : String)
    (h : cmd ∈ (startCommandsOf w req).map Prod.fst) :
    ∃ c ∈ req.startInfo.getD [], cmd = followLoadOf c := by
  unfold startCommandsOf at h
  cases hs : req.startInfo with
  | none => rw [hs] at h; simp at h
  | some l =>
    rw [hs] at h
    simp only [List.map_map, List.mem_map, Function.comp_apply] at h
    obtain ⟨c, hc, rfl⟩ := h
    exact ⟨c, hc, rfl⟩

theorem mem_startCommands_snd (w : World) (req : Request) (cmd : String)
    (h : cmd ∈ (startCommandsOf w req).map Prod.snd) :
    ∃ c ∈ req.startInfo.getD [], cmd = followRunOf w req c := by
  unfold startCommandsOf at h
  cases hs : req.startInfo with
  | none => rw [hs] at h; simp at h
  | some l =>
    rw [hs] at h
    simp only [List.map_map, List.mem_map, Function.comp_apply] at h
    obtain ⟨c, hc, rfl⟩ := h
    exact ⟨c, hc, rfl⟩

theorem followLoadOf_head (c : StartInfo) : (followLoadOf c).data.head? = some 'l' := by
  unfold followLoadOf
  simp only [String.data_append]
  rfl

theorem followRunOf_head (w : World) (req : Request) (c : StartInfo) :
    (followRunOf w req c).data.head? = some 'r' := by
  unfold followRunOf
  simp only [String.data_append]
  rfl

/-! ## Cancellations (C6) -/

/-- C6. The commands of a call are, in dispatch order: the load command, one cancel
command per entry of the cancellation list in the order of the list, the run
command, then only follow-on commands. Each cancel command is
`cancelPres("PresentationId=<entry id>,StartTime=<t>")` with the `<t>` of the run
command; each is dispatched after the load has settled and not after the run; and
with a delay present all of them are dispatched before the 5-second timer of the run
is set. -/
theorem cancels_between_load_and_run (w : World) (req : Request) :
    ∃ (cancels rest : List Event) (tRun : Int),
      (handlePlaylist w req).dispatched
        = ⟨w.now, loadCommandOf req⟩ :: (cancels ++ ⟨tRun, runCommandOf w req⟩ :: rest)
      ∧ runCommandOf w req = "runPres(\"PresentationId=" ++ req.id ++ ",StartTime="
          ++ formatStart (runTimeOf w req) ++ "\")"
      ∧ cancels.map Event.cmd = (req.cancelInfo.getD []).map (fun c =>
          "cancelPres(\"PresentationId=" ++ c.id ++ ",StartTime="
            ++ formatStart (runTimeOf w req) ++ "\")")
      ∧ (∀ ev ∈ cancels,
          execDone w.proc w.now (loadCommandOf req) ≤ ev.time ∧ ev.time ≤ tRun)
      ∧ (∀ ev ∈ rest, tRun ≤ ev.time ∧ ev.cmd.data.head? ≠ some 'c'
          ∧ ∃ c ∈ req.startInfo.getD [], ev.cmd = followLoadOf c ∨ ev.cmd = followRunOf w req c)
      ∧ (∀ d : Int, req.delay = some d → ∃ tSet : Int,
          (handlePlaylist w req).timers.head? = some ⟨tSet, Frac.ofInt 5000, tRun⟩
          ∧ tRun = tSet + 5000 ∧ ∀ ev ∈ cancels, ev.time ≤ tSet) := by
  have hrest : ∀ (t3 tRun : Int) (x1 x2 : Int) (ev : Event), tRun ≤ t3 → 0 ≤ x1 → 0 ≤ x2 →
      ev ∈ fireTwo (t3 + x1) (wave (t3 + x1) ((startCommandsOf w req).map Prod.fst))
        (t3 + x2) (wave (t3 + x2) ((startCommandsOf w req).map Prod.snd)) →
      tRun ≤ ev.time ∧ ev.cmd.data.head? ≠ some 'c' ∧ ∃ c ∈ req.startInfo.getD [],
        ev.cmd = followLoadOf c ∨ ev.cmd = followRunOf w req c := by
    intro t3 tRun x1 x2 ev h3 h1 h2 hev
    rw [mem_fireTwo, mem_wave, mem_wave] at hev
    rcases hev with ⟨ht, hc⟩ | ⟨ht, hc⟩
    · obtain ⟨c, hc1, hc2⟩ := mem_startCommands_fst w req _ hc
      refine ⟨by omega, ?_, c, hc1, Or.inl hc2⟩
      rw [hc2, followLoadOf_head]
      decide
    · obtain ⟨c, hc1, hc2⟩ := mem_startCommands_snd w req _ hc
      refine ⟨by omega, ?_, c, hc1, Or.inr hc2⟩
      rw [hc2, followRunOf_head]
      decide
  have hc := cancelCommandsOf_eq w req
  cases h : req.delay with
  | none =>
    have ho := handlePlaylist_null w req h
    refine ⟨seqEvents w.proc (execDone w.proc w.now (loadCommandOf req)) (cancelCommandsOf w req),
      (handlePlaylist w req).deferred,
      seqDone w.proc (execDone w.proc w.now (loadCommandOf req)) (cancelCommandsOf w req),
      ?_, rfl, ?_, ?_, ?_, ?_⟩
    · rw [ho]
      simp only [Outcome.dispatched, List.cons_append, List.append_assoc, List.singleton_append,
        List.nil_append]
    · rw [seqEvents_cmd, hc]
    · exact seqEvents_time _ _ _
    · intro ev hev
      rw [ho] at hev
      exact hrest _ _ _ _ ev (execDone_ge _ _ _)
        (le_trans (by decide) (timerDelay_wave_pos _ _)) (by decide) hev
    · intro d hd
      exact absurd hd (by simp)
  | some d =>
    have ho := handlePlaylist_delay w req d h
    refine ⟨seqEvents w.proc (execDone w.proc w.now (loadCommandOf req)) (cancelCommandsOf w req),
      (handlePlaylist w req).deferred.tail,
      seqDone w.proc (execDone w.proc w.now (loadCommandOf req)) (cancelCommandsOf w req)
        + 5000,
      ?_, rfl, ?_, ?_, ?_, ?_⟩
    · rw [ho]
      simp only [Outcome.dispatched, List.cons_append, List.tail_cons]
    · rw [seqEvents_cmd, hc]
    · intro ev hev
      have := seqEvents_time _ _ _ ev hev
      exact ⟨this.1, by omega⟩
    · intro ev hev
      rw [ho] at hev
      exact hrest _ _ _ _ ev (execDone_ge _ _ _)
        (le_trans (by decide) (timerDelay_wave_pos _ _))
        (le_trans (by decide) (timerDelay_wave_pos _ _)) hev
    · intro d1 _
      rw [ho]
      exact ⟨_, rfl, rfl, fun ev hev => (seqEvents_time _ _ _ ev hev).2⟩

/-- Witness of C6 shown on the documented request: two cancel commands, in the order
of the list, between the load and the run. -/
theorem cancels_between_load_and_run_witness :
    (handlePlaylist ⟨sampleNow, 0, promptDevice⟩ docRequest).dispatched.map Event.cmd
      = ["loadPres(\"Flavor=domestic/V,Duration=1950,PresentationId=4,Logo=domesticAds/TAG3631\")",
         "cancelPres(\"PresentationId=ldl3,StartTime=02/05/2025 14:15:12:00\")",
         "cancelPres(\"PresentationId=sidebar2,StartTime=02/05/2025 14:15:12:00\")",
         "runPres(\"PresentationId=4,StartTime=02/05/2025 14:15:12:00\")",
         "loadPres(\"Flavor=domestic/ldlE,Duration=72000,PresentationId=ldl3\")",
         "runPres(\"PresentationId=ldl3,StartTime=02/05/2025 14:16:17:00\")"]
    ∧ ∃ (cancels rest : List Event) (tRun : Int),
      (handlePlaylist ⟨sampleNow, 0, promptDevice⟩ docRequest).dispatched
        = ⟨sampleNow, loadCommandOf docRequest⟩ ::
          (cancels ++ ⟨tRun, runCommandOf ⟨sampleNow, 0, promptDevice⟩ docRequest⟩ :: rest)
      ∧ cancels.length = 2 := by
  refine ⟨by decide, ?_⟩
  obtain ⟨cancels, rest, tRun, h1, _, h3, _⟩ :=
    cancels_between_load_and_run ⟨sampleNow, 0, promptDevice⟩ docRequest
  refine ⟨cancels, rest, tRun, h1, ?_⟩
  have := congrArg List.length h3
  simpa [docRequest] using this

/-! ## The delay branch (C8) -/

end I2
